import Mathlib

/-!
Verification of the job-queue coordination core of the extrator-de-curriculo
repository, shallowly embedded in Lean 4.

The Job Store (a Firestore collection named processing_queue) is modelled as an
association list from document id to job record, enumerated in the order the
store would return an unordered query (Firestore: ascending document id).
Firestore timestamps are modelled as integer milliseconds.  Each call to
db.runTransaction is one atomic step; concurrent transactions are modelled by
their serialization (Firestore transactions are serializable), so N concurrent
claim attempts are N atomic steps executed in sequence.  HTTP side effects
(fetch of another endpoint) are modelled as data returned by the embedded
handler rather than as store writes.
-/

/-- Structured extraction result written to a job record by the workers.  The
four fields mirror the fields of the Gemini response schema and of the local
fallback extractors (nome, idade, email, contatos); a field that the JS object
does not carry is modelled as none. -/
structure ExtractedData where
  nome : String
  idade : Option Int := none
  email : Option String := none
  contatos : Option (List String) := none
  deriving Repr, DecidableEq

/-- Result shape shared by processWithGemini / callGeminiAPI and the fallback
extractors: a success flag plus either data or an error message. -/
structure ApiResult where
  success : Bool
  data : Option ExtractedData := none
  error : Option String := none
  deriving Repr, DecidableEq

/-- One document of the processing_queue collection.  The field set is the
union of the fields the revisions read or write; optional fields are absent
(none) until some component writes them.  status is kept as the raw string the
code stores: pending (spec: queued), processing (spec: claimed), completed
(spec: done), failed (spec: dead). -/
structure Job where
  userId : String
  status : String
  text : String
  selectedFields : List String
  fileName : String
  createdAt : Int
  startedAt : Option Int := none
  finishedAt : Option Int := none
  claimedAt : Option Int := none
  resetAt : Option Int := none
  retryCount : Option Nat := none
  error : Option String := none
  result : Option ExtractedData := none
  cleanedUp : Bool := false
  deriving Repr, DecidableEq

/-- The Job Store: document id paired with the job record, in store
enumeration order. -/
abbrev Store := List (String × Job)

/-- Firestore document read (doc(id).get / transaction.get): the record held
under the first occurrence of the id. -/
def Store.get : Store → String → Option Job
  | [], _ => none
  | p :: rest, id => if p.1 = id then some p.2 else Store.get rest id

/-- Firestore document update (doc(id).update / transaction.update / a batch
update of one doc): merge new field values into the record under the id; a
missing id leaves the store unchanged (the thrown not-found error is caught by
every caller in the source). -/
def Store.update : Store → String → (Job → Job) → Store
  | [], _, _ => []
  | p :: rest, id, f =>
      (if p.1 = id then (p.1, f p.2) else p) :: Store.update rest id f

/-- Batched per-document rewrite used by the sweep endpoints: every record is
rewritten by f (f is the identity on documents the sweep does not touch). -/
def Store.mapJobs : Store → (Job → Job) → Store
  | [], _ => []
  | p :: rest, f => (p.1, f p.2) :: Store.mapJobs rest f

theorem Store.get_update_self (s : Store) (id : String) (f : Job → Job) :
    (s.update id f).get id = (s.get id).map f := by
  induction s with
  | nil => rfl
  | cons p rest ih =>
      by_cases h : p.1 = id <;> simp [Store.update, Store.get, h, ih]

theorem Store.get_update_other (s : Store) (id id2 : String) (f : Job → Job)
    (h : id2 ≠ id) : (s.update id f).get id2 = s.get id2 := by
  induction s with
  | nil => rfl
  | cons p rest ih =>
      by_cases h1 : p.1 = id
      · subst h1
        simp [Store.update, Store.get, Ne.symm h, ih]
      · by_cases h2 : p.1 = id2 <;> simp [Store.update, Store.get, h1, h2, h, ih]

theorem Store.get_mapJobs (s : Store) (id : String) (f : Job → Job) :
    (s.mapJobs f).get id = (s.get id).map f := by
  induction s with
  | nil => rfl
  | cons p rest ih =>
      by_cases h : p.1 = id <;> simp [Store.mapJobs, Store.get, h, ih]

/-- Claim-time failure taxonomy of claimJob.  The constructors correspond to
the source result messages: notFound to the message Job não encontrado,
ownershipMismatch to Job não pertence ao usuário, and notClaimable (carrying
the observed status) to the message Job já está em status: followed by the
status. -/
inductive ClaimError where
  | notFound : ClaimError
  | ownershipMismatch : ClaimError
  | notClaimable : String → ClaimError
  deriving Repr, DecidableEq

namespace ProcessSingle

/-- Embedding of claimJob from api/process-single.js (lines 91 to 124).  The
whole body runs inside db.runTransaction, hence it is one atomic step: read
the doc, fail on absence, foreign owner, or non-pending status, otherwise
write status processing and startedAt now, returning the pre-claim snapshot
jobData that was read before the update. -/
def claimJob (now : Int) (jobId userId : String) (s : Store) :
    Except ClaimError Job × Store :=
  match s.get jobId with
  | none => (Except.error ClaimError.notFound, s)
  | some jobData =>
      if jobData.userId ≠ userId then
        (Except.error ClaimError.ownershipMismatch, s)
      else if jobData.status ≠ "pending" then
        (Except.error (ClaimError.notClaimable jobData.status), s)
      else
        (Except.ok jobData,
          s.update jobId fun j =>
            { j with status := "processing", startedAt := some now })

end ProcessSingle

/-- Serialization of N concurrent claim attempts on the same job: each attempt
is one atomic transaction, executed in sequence on the evolving store; the
list collects every attempt result in order. -/
def claimAttempts (now : Int) (jobId userId : String) :
    Store → Nat → List (Except ClaimError Job) × Store
  | s, 0 => ([], s)
  | s, n + 1 =>
      let step := ProcessSingle.claimJob now jobId userId s
      let rest := claimAttempts now jobId userId step.2 n
      (step.1 :: rest.1, rest.2)

/-- Boolean success test on a claim attempt result. -/
def isOkB : Except ClaimError Job → Bool
  | Except.ok _ => true
  | Except.error _ => false

/-- Test that a claim attempt result is the notClaimable failure carrying the
status processing (the losing message of a race on an already claimed job). -/
def isNotClaimableProcessing : Except ClaimError Job → Bool
  | Except.error (ClaimError.notClaimable st) => st == "processing"
  | _ => false

theorem claimAttempts_processing (now : Int) (jobId userId : String)
    (s : Store) (j : Job) (hget : s.get jobId = some j)
    (howner : j.userId = userId) (hst : j.status = "processing") (n : Nat) :
    claimAttempts now jobId userId s n =
      (List.replicate n (Except.error (ClaimError.notClaimable ("processing"))), s) := by
  induction n generalizing s with
  | zero => simp [claimAttempts]
  | succ n ih =>
      have hclaim : ProcessSingle.claimJob now jobId userId s =
          (Except.error (ClaimError.notClaimable ("processing")), s) := by
        simp [ProcessSingle.claimJob, hget, howner, hst]
      simp [claimAttempts, hclaim, ih s hget]
      exact List.replicate_succ _ _

/-- Concrete queued job used by the claim witnesses. -/
def c1Job : Job :=
  { userId := "u1", status := "pending", text := "cv text",
    selectedFields := ["idade"], fileName := "cv.pdf", createdAt := 10 }

/-- Concrete one-job store used by the claim witnesses. -/
def c1Store : Store := [(("j1"), c1Job)]

/-- C1: under concurrent claim attempts on one queued job, serialized by the
store transaction, exactly one of the N = n + 1 attempts succeeds and the
other n observe notClaimable (the losing message Job já está em status:
processing). -/
theorem claim_concurrent_single_winner (now : Int) (jobId userId : String)
    (s : Store) (j : Job) (hget : s.get jobId = some j)
    (howner : j.userId = userId) (hpending : j.status = "pending") (n : Nat) :
    ((claimAttempts now jobId userId s (n + 1)).1.countP isOkB = 1) ∧
    ((claimAttempts now jobId userId s (n + 1)).1.countP
      isNotClaimableProcessing = n) := by
  have hclaim : ProcessSingle.claimJob now jobId userId s =
      (Except.ok j, s.update jobId fun x =>
        { x with status := "processing", startedAt := some now }) := by
    simp [ProcessSingle.claimJob, hget, howner, hpending]
  have hget2 : (s.update jobId fun x =>
      { x with status := "processing", startedAt := some now }).get jobId
      = some { j with status := "processing", startedAt := some now } := by
    rw [Store.get_update_self, hget]; rfl
  have hrest := claimAttempts_processing now jobId userId _ _ hget2 howner rfl n
  constructor <;>
    simp [claimAttempts, hclaim, hrest, isOkB, isNotClaimableProcessing,
      List.countP_replicate]

/-- Witness for C1: three serialized attempts on the concrete queued job give
one success and two notClaimable results. -/
theorem claim_concurrent_single_winner_witness :
    ((claimAttempts 50 ("j1") ("u1") c1Store 3).1.countP isOkB = 1) ∧
    ((claimAttempts 50 ("j1") ("u1") c1Store 3).1.countP
      isNotClaimableProcessing = 2) :=
  claim_concurrent_single_winner 50 ("j1") ("u1") c1Store c1Job rfl rfl rfl 2

/-- C2: full case analysis of claimJob.  A missing job yields notFound, a
foreign owner yields ownershipMismatch, a non-pending status yields
notClaimable carrying that status (each leaving the store untouched);
otherwise the single transaction returns the pre-claim snapshot of the job,
rewrites exactly the claimed document to status processing with startedAt set
to now, and leaves every other document unchanged. -/
theorem claimJob_spec (now : Int) (jobId userId : String) (s : Store) :
    (s.get jobId = none →
      ProcessSingle.claimJob now jobId userId s =
        (Except.error ClaimError.notFound, s)) ∧
    (∀ j, s.get jobId = some j → j.userId ≠ userId →
      ProcessSingle.claimJob now jobId userId s =
        (Except.error ClaimError.ownershipMismatch, s)) ∧
    (∀ j, s.get jobId = some j → j.userId = userId → j.status ≠ "pending" →
      ProcessSingle.claimJob now jobId userId s =
        (Except.error (ClaimError.notClaimable j.status), s)) ∧
    (∀ j, s.get jobId = some j → j.userId = userId → j.status = "pending" →
      (ProcessSingle.claimJob now jobId userId s).1 = Except.ok j ∧
      (ProcessSingle.claimJob now jobId userId s).2.get jobId =
        some { j with status := "processing", startedAt := some now } ∧
      ∀ id2, id2 ≠ jobId →
        (ProcessSingle.claimJob now jobId userId s).2.get id2 = s.get id2) := by
  refine ⟨?_, ?_, ?_, ?_⟩
  · intro h; simp [ProcessSingle.claimJob, h]
  · intro j hj ho; simp [ProcessSingle.claimJob, hj, ho]
  · intro j hj ho hs; simp [ProcessSingle.claimJob, hj, ho, hs]
  · intro j hj ho hs
    refine ⟨?_, ?_, ?_⟩
    · simp [ProcessSingle.claimJob, hj, ho, hs]
    · simp [ProcessSingle.claimJob, hj, ho, hs, Store.get_update_self]
    · intro id2 h2
      simp [ProcessSingle.claimJob, hj, ho, hs,
        Store.get_update_other _ _ _ _ h2]

/-- Witness for C2: the successful branch on the concrete store returns the
pre-claim snapshot and leaves an unrelated document id unaffected. -/
theorem claimJob_spec_witness :
    (ProcessSingle.claimJob 50 ("j1") ("u1") c1Store).1 = Except.ok c1Job ∧
    (ProcessSingle.claimJob 50 ("j1") ("u1") c1Store).2.get ("j2") =
      c1Store.get ("j2") :=
  ⟨((claimJob_spec 50 ("j1") ("u1") c1Store).2.2.2 c1Job rfl rfl rfl).1,
   ((claimJob_spec 50 ("j1") ("u1") c1Store).2.2.2 c1Job rfl rfl rfl).2.2
     ("j2") (by decide)⟩

namespace ProcessJob

/-- Embedding of processJobInBackground from api/process-job.js (lines 17 to
50).  The extractor (callGeminiAPI, an external collaborator) is passed as a
function.  A missing or non-pending job performs no write (the handler only
triggers the next job); otherwise the job is marked processing, the extractor
runs once, and the outcome is written directly as completed or failed — this
path keeps no retry bookkeeping of any kind. -/
def processJobInBackground (now : Int)
    (extract : String → List String → ApiResult)
    (jobId userId : String) (s : Store) : Store :=
  match s.get jobId with
  | none => s
  | some jobData =>
      if jobData.status ≠ "pending" then s
      else
        let s1 := s.update jobId fun j =>
          { j with status := "processing", startedAt := some now }
        let r := extract jobData.text jobData.selectedFields
        if r.success then
          s1.update jobId fun j =>
            { j with
              status := "completed", finishedAt := some now,
              result := r.data }
        else
          s1.update jobId fun j =>
            { j with
              status := "failed", finishedAt := some now,
              error := r.error }

end ProcessJob

namespace Part000

/-- Retry ceiling of the autocorrective starter (src/unnamed/part_000, line
226 resets a stuck job only while retryCount < 2): the constant the spec
calls maxAttempts. -/
def maxAttempts : Nat := 2

end Part000

/-- Concrete queued job used by the C4 theorems. -/
def c4Job : Job :=
  { userId := "u1", status := "pending", text := "cv", selectedFields := [],
    fileName := "a.pdf", createdAt := 0 }

/-- Concrete one-job store used by the C4 theorems. -/
def c4Store : Store := [(("j1"), c4Job)]

/-- Extractor that fails on every call, as an always-degraded upstream. -/
def alwaysFailExtract : String → List String → ApiResult :=
  fun _ _ => { success := false, error := some ("Timeout na API Gemini") }

/-- Counterexample for C4: a job whose extraction always fails is written
terminally failed after a single claim cycle — the second cycle is already a
no-op — while the retry ceiling of the code is maxAttempts = 2, so the job
reaches the dead state after strictly fewer than maxAttempts claim cycles and
no attempt counter is ever incremented. -/
theorem retry_bound_counterexample :
    ((ProcessJob.processJobInBackground 10 alwaysFailExtract ("j1") ("u1")
        c4Store).get ("j1")).map Job.status = some ("failed") ∧
    ProcessJob.processJobInBackground 20 alwaysFailExtract ("j1") ("u1")
        (ProcessJob.processJobInBackground 10 alwaysFailExtract ("j1") ("u1")
          c4Store)
      = ProcessJob.processJobInBackground 10 alwaysFailExtract ("j1") ("u1")
          c4Store ∧
    Part000.maxAttempts = 2 := by decide

theorem processJobInBackground_nonpending (now : Int)
    (extract : String → List String → ApiResult) (jobId userId : String)
    (s : Store) (j : Job) (hget : s.get jobId = some j)
    (hst : j.status ≠ "pending") :
    ProcessJob.processJobInBackground now extract jobId userId s = s := by
  simp [ProcessJob.processJobInBackground, hget, hst]

/-- C4 (amended): a queued job whose extraction always fails is marked
terminally failed by its first claim cycle, and every further cycle on it is
a no-op; the extraction path maintains no attempt counter. -/
theorem always_failing_terminal_after_one_cycle (now now2 : Int)
    (extract : String → List String → ApiResult) (jobId userId : String)
    (s : Store) (j : Job) (hget : s.get jobId = some j)
    (hpending : j.status = "pending")
    (hfail : ∀ t f, (extract t f).success = false) :
    ((ProcessJob.processJobInBackground now extract jobId userId s).get
        jobId).map Job.status = some ("failed") ∧
    ProcessJob.processJobInBackground now2 extract jobId userId
        (ProcessJob.processJobInBackground now extract jobId userId s)
      = ProcessJob.processJobInBackground now extract jobId userId s := by
  have h1 : ProcessJob.processJobInBackground now extract jobId userId s =
      (s.update jobId fun x =>
        { x with status := "processing", startedAt := some now }).update jobId
        fun x =>
          { x with
            status := "failed", finishedAt := some now,
            error := (extract j.text j.selectedFields).error } := by
    simp [ProcessJob.processJobInBackground, hget, hpending, hfail]
  have hget1 : (ProcessJob.processJobInBackground now extract jobId userId
      s).get jobId = some
        { j with
          status := "failed", startedAt := some now, finishedAt := some now,
          error := (extract j.text j.selectedFields).error } := by
    rw [h1, Store.get_update_self, Store.get_update_self, hget]; rfl
  refine ⟨by rw [hget1]; rfl, ?_⟩
  refine processJobInBackground_nonpending now2 extract jobId userId _ _
    hget1 ?_
  simp

/-- Witness for the amended C4 statement at the concrete store. -/
theorem always_failing_terminal_after_one_cycle_witness :
    ((ProcessJob.processJobInBackground 10 alwaysFailExtract ("j1") ("u1")
        c4Store).get ("j1")).map Job.status = some ("failed") ∧
    ProcessJob.processJobInBackground 20 alwaysFailExtract ("j1") ("u1")
        (ProcessJob.processJobInBackground 10 alwaysFailExtract ("j1") ("u1")
          c4Store)
      = ProcessJob.processJobInBackground 10 alwaysFailExtract ("j1") ("u1")
          c4Store :=
  always_failing_terminal_after_one_cycle 10 20 alwaysFailExtract ("j1")
    ("u1") c4Store c4Job rfl rfl (fun _ _ => rfl)

namespace StartProcessing

/-- Liveness window of cleanupStuckJobs in api/start-processing.js (line 131):
five minutes in milliseconds. -/
def livenessWindowMs : Int := 5 * 60 * 1000

/-- Age test of cleanupStuckJobs (lines 152 to 154): the reference timestamp
is startedAt falling back to claimedAt, and the job counts as stuck too long
when that timestamp is strictly older than now minus the window; a job with
neither timestamp never takes the kill branch. -/
def isStuckKill (now : Int) (j : Job) : Bool :=
  match (match j.startedAt with | some t => some t | none => j.claimedAt) with
  | some t => decide (t < now - livenessWindowMs)
  | none => false

/-- Per-document action of cleanupStuckJobs (lines 150 to 173): a processing
job past the window is marked failed with finishedAt, error text and
cleanedUp; every other processing job — however recent — is reset to pending
with resetAt. -/
def cleanupAction (now : Int) (j : Job) : Job :=
  if isStuckKill now j then
    { j with
      status := "failed", finishedAt := some now,
      error := some ("Job travado - timeout de 5 minutos"),
      cleanedUp := true }
  else
    { j with status := "pending", resetAt := some now }

/-- Embedding of cleanupStuckJobs from api/start-processing.js (lines 129 to
186): query the owner's processing jobs, apply cleanupAction to each in one
batch commit, and report the reset count and the failed count. -/
def cleanupStuckJobs (now : Int) (userId : String) (s : Store) :
    Store × Nat × Nat :=
  (s.mapJobs fun j =>
      if j.userId == userId && j.status == "processing" then
        cleanupAction now j
      else j,
   (s.filter fun p => (p.2.userId == userId && p.2.status == "processing")
      && !(isStuckKill now p.2)).length,
   (s.filter fun p => (p.2.userId == userId && p.2.status == "processing")
      && isStuckKill now p.2).length)

end StartProcessing

/-- Freshly claimed job (startedAt equal to the sweep time, so zero elapsed
age) used by the C5 theorems. -/
def c5Fresh : Job :=
  { userId := "u1", status := "processing", text := "cv",
    selectedFields := [], fileName := "b.pdf", createdAt := 0,
    startedAt := some 1000000 }

/-- Concrete one-job store used by the C5 theorems. -/
def c5Store : Store := [(("j1"), c5Fresh)]

/-- Counterexample for C5: a sweep run while the claimed job's age is zero —
far inside the five-minute liveness window — still resets the job to pending,
so the Reclaimer does act on jobs whose window has not elapsed. -/
theorem reclaim_window_counterexample :
    ((StartProcessing.cleanupStuckJobs 1000000 ("u1") c5Store).1.get
        ("j1")).map Job.status = some ("pending") ∧
    (1000000 - 1000000 : Int) ≤ StartProcessing.livenessWindowMs ∧
    c5Fresh.status = "processing" := by decide

/-- C5 (amended): every processing job of the owner is acted on by each
sweep: one past the liveness window is killed (marked failed with the stuck
error and cleanedUp), every other one — including jobs within the window —
is reset to pending with resetAt, and jobs of other owners or in other
statuses are left unchanged. -/
theorem cleanup_sweep_spec (now : Int) (userId : String) (s : Store)
    (id : String) (j : Job) (hget : s.get id = some j) :
    (j.userId = userId → j.status = "processing" →
      StartProcessing.isStuckKill now j = true →
      (StartProcessing.cleanupStuckJobs now userId s).1.get id =
        some
          { j with
            status := "failed", finishedAt := some now,
            error := some ("Job travado - timeout de 5 minutos"),
            cleanedUp := true }) ∧
    (j.userId = userId → j.status = "processing" →
      StartProcessing.isStuckKill now j = false →
      (StartProcessing.cleanupStuckJobs now userId s).1.get id =
        some { j with status := "pending", resetAt := some now }) ∧
    (¬(j.userId = userId ∧ j.status = "processing") →
      (StartProcessing.cleanupStuckJobs now userId s).1.get id = some j) := by
  refine ⟨?_, ?_, ?_⟩
  · intro h1 h2 h3
    simp [StartProcessing.cleanupStuckJobs, Store.get_mapJobs, hget, h1, h2,
      StartProcessing.cleanupAction, h3]
  · intro h1 h2 h3
    simp [StartProcessing.cleanupStuckJobs, Store.get_mapJobs, hget, h1, h2,
      StartProcessing.cleanupAction, h3]
  · intro h
    simp [StartProcessing.cleanupStuckJobs, Store.get_mapJobs, hget,
      Bool.and_eq_true, beq_iff_eq]
    intro h1 h2
    exact absurd ⟨h1, h2⟩ h

/-- Witness for the amended C5 statement: the fresh processing job is reset
to pending by the sweep at the concrete store. -/
theorem cleanup_sweep_spec_witness :
    (StartProcessing.cleanupStuckJobs 1000000 ("u1") c5Store).1.get ("j1") =
      some { c5Fresh with status := "pending", resetAt := some 1000000 } :=
  (cleanup_sweep_spec 1000000 ("u1") c5Store ("j1") c5Fresh rfl).2.1 rfl rfl
    (by decide)

namespace Part001

/-- Embedding of markJobAsFailed from src/unnamed/part_001 (lines 449 to
460): an unconditional document update that overwrites status, finishedAt and
error of the addressed job, with no read and no status guard before the
write. -/
def markJobAsFailed (now : Int) (jobId errorMessage : String) (s : Store) :
    Store :=
  s.update jobId fun j =>
    { j with
      status := "failed", finishedAt := some now,
      error := some ("Falha no disparo: " ++ errorMessage) }

end Part001

/-- Completed (terminal) job used by the C6 theorems. -/
def c6Done : Job :=
  { userId := "u1", status := "completed", text := "cv",
    selectedFields := [], fileName := "c.pdf", createdAt := 0,
    finishedAt := some 50, result := some { nome := "Ana Lima" } }

/-- Concrete one-job store used by the C6 theorems. -/
def c6Store : Store := [(("j1"), c6Done)]

/-- Counterexample for C6: a write applied after the terminal state completed
is neither rejected nor a no-op — markJobAsFailed flips the finished job to
failed and changes the record. -/
theorem terminal_write_once_counterexample :
    c6Done.status = "completed" ∧
    ((Part001.markJobAsFailed 100 ("j1") ("HTTP 500") c6Store).get
        ("j1")).map Job.status = some ("failed") ∧
    (Part001.markJobAsFailed 100 ("j1") ("HTTP 500") c6Store).get ("j1")
      ≠ some c6Done := by decide

/-- C6 (amended): terminal states are not write-protected.  The
failure-marking path overwrites status, finishedAt and error of an existing
job unconditionally, whatever its current status (including the terminal
completed and failed); only the claim transition guards on status and
rejects a terminal job with notClaimable while leaving the store unchanged. -/
theorem markJobAsFailed_unconditional (now : Int) (id msg : String)
    (s : Store) (j : Job) (hget : s.get id = some j) :
    (Part001.markJobAsFailed now id msg s).get id =
      some
        { j with
          status := "failed", finishedAt := some now,
          error := some ("Falha no disparo: " ++ msg) } ∧
    (j.status = "completed" ∨ j.status = "failed" →
      ProcessSingle.claimJob now id j.userId s =
        (Except.error (ClaimError.notClaimable j.status), s)) := by
  constructor
  · rw [Part001.markJobAsFailed, Store.get_update_self, hget]; rfl
  · intro ht
    have hne : j.status ≠ "pending" := by
      rcases ht with h | h <;> rw [h] <;> decide
    simp [ProcessSingle.claimJob, hget, hne]

/-- Witness for the amended C6 statement at the concrete store. -/
theorem markJobAsFailed_unconditional_witness :
    (Part001.markJobAsFailed 100 ("j1") ("HTTP 500") c6Store).get ("j1") =
      some
        { c6Done with
          status := "failed", finishedAt := some 100,
          error := some ("Falha no disparo: " ++ "HTTP 500") } ∧
    ProcessSingle.claimJob 100 ("j1") c6Done.userId c6Store =
      (Except.error (ClaimError.notClaimable c6Done.status), c6Store) :=
  ⟨(markJobAsFailed_unconditional 100 ("j1") ("HTTP 500") c6Store c6Done
      rfl).1,
   (markJobAsFailed_unconditional 100 ("j1") ("HTTP 500") c6Store c6Done
      rfl).2 (Or.inl rfl)⟩

namespace QueueStatus

/-- Rolling counters of api/queue-status.js (lines 49 to 61): total plus one
counter per tracked status key. -/
structure Stats where
  total : Nat := 0
  pending : Nat := 0
  processing : Nat := 0
  completed : Nat := 0
  failed : Nat := 0
  deriving Repr, DecidableEq

/-- Status key used by the counting loop (line 58): a missing status string
falls back to pending (doc.data().status || the string pending). -/
def statusKey (j : Job) : String := if j.status = "" then "pending" else j.status

/-- One step of the counting loop (lines 57 to 61): total always increments,
and the counter matching the status key increments; keys outside the four
tracked ones only contribute to total. -/
def tally (acc : Stats) (j : Job) : Stats :=
  { total := acc.total + 1,
    pending := if statusKey j = "pending" then acc.pending + 1 else acc.pending,
    processing :=
      if statusKey j = "processing" then acc.processing + 1 else acc.processing,
    completed :=
      if statusKey j = "completed" then acc.completed + 1 else acc.completed,
    failed := if statusKey j = "failed" then acc.failed + 1 else acc.failed }

/-- The counting loop over the snapshot docs. -/
def countStats (jobs : List Job) : Stats := jobs.foldl tally {}

/-- Math.round of (finished / total) * 100 for non-negative integers: the
real value 100 * finished / total + 1 / 2, floored, written with integer
division (Math.round x = floor (x + 1 / 2) for the non-negative values that
occur here). -/
def roundPct (finished total : Nat) : Nat := (200 * finished + total) / (2 * total)

/-- JSON payload of the queue-status handler.  The two JSON shapes of the
source (the early empty-snapshot return of lines 37 to 46, which carries
neither isComplete nor needsProcessing, and the full return of lines 80 to
85) are merged into one record; a field absent from the early return is
modelled as false (an absent JSON field reads as undefined, which is falsy).
dispatchesBatch records whether the handler fires the process-batch trigger
of lines 68 to 78. -/
structure StatusResponse where
  total : Nat
  pending : Nat
  processing : Nat
  completed : Nat
  failed : Nat
  progress : Nat
  isComplete : Bool
  needsProcessing : Bool
  dispatchesBatch : Bool
  deriving Repr, DecidableEq

/-- Snapshot of the query of lines 32 to 35: every job of the user, in store
order (the 500-document cap is a store paging bound treated as an external
collaborator constraint and not modelled). -/
def userJobs (userId : String) (s : Store) : List Job :=
  (s.filter fun p => p.2.userId == userId).map fun p => p.2

/-- Embedding of the api/queue-status.js handler (lines 20 to 99).  It issues
a single read query and no write; the only side effect is the fire-and-forget
fetch of /api/process-batch, fired exactly when there are pending jobs and
none processing, recorded in dispatchesBatch.  The store is returned
unchanged. -/
def handler (userId : String) (s : Store) : StatusResponse × Store :=
  let jobs := userJobs userId s
  if jobs.isEmpty then
    ({ total := 0, pending := 0, processing := 0, completed := 0, failed := 0,
       progress := 100, isComplete := false, needsProcessing := false,
       dispatchesBatch := false }, s)
  else
    let stats := countStats jobs
    let finished := stats.completed + stats.failed
    let progress :=
      if 0 < stats.total then roundPct finished stats.total else 0
    let dispatch := decide (0 < stats.pending) && decide (stats.processing = 0)
    ({ total := stats.total, pending := stats.pending,
       processing := stats.processing, completed := stats.completed,
       failed := stats.failed, progress := progress,
       isComplete := decide (100 ≤ progress), needsProcessing := dispatch,
       dispatchesBatch := dispatch }, s)

theorem countStats_total (jobs : List Job) (acc : Stats) :
    (jobs.foldl tally acc).total = acc.total + jobs.length := by
  induction jobs generalizing acc with
  | nil => simp
  | cons j rest ih => simp [tally, ih]; omega

theorem countStats_pending (jobs : List Job) (acc : Stats) :
    (jobs.foldl tally acc).pending =
      acc.pending + jobs.countP (fun j => statusKey j == "pending") := by
  induction jobs generalizing acc with
  | nil => simp
  | cons j rest ih =>
      by_cases h : statusKey j = "pending" <;>
        simp [List.countP_cons, tally, ih, h] <;> omega

theorem countStats_processing (jobs : List Job) (acc : Stats) :
    (jobs.foldl tally acc).processing =
      acc.processing + jobs.countP (fun j => statusKey j == "processing") := by
  induction jobs generalizing acc with
  | nil => simp
  | cons j rest ih =>
      by_cases h : statusKey j = "processing" <;>
        simp [List.countP_cons, tally, ih, h] <;> omega

theorem countStats_completed (jobs : List Job) (acc : Stats) :
    (jobs.foldl tally acc).completed =
      acc.completed + jobs.countP (fun j => statusKey j == "completed") := by
  induction jobs generalizing acc with
  | nil => simp
  | cons j rest ih =>
      by_cases h : statusKey j = "completed" <;>
        simp [List.countP_cons, tally, ih, h] <;> omega

theorem countStats_failed (jobs : List Job) (acc : Stats) :
    (jobs.foldl tally acc).failed =
      acc.failed + jobs.countP (fun j => statusKey j == "failed") := by
  induction jobs generalizing acc with
  | nil => simp
  | cons j rest ih =>
      by_cases h : statusKey j = "failed" <;>
        simp [List.countP_cons, tally, ih, h] <;> omega

end QueueStatus

theorem handler_dispatch_iff (userId : String) (s : Store) :
    (QueueStatus.handler userId s).1.dispatchesBatch = true ↔
      (∃ j ∈ QueueStatus.userJobs userId s, QueueStatus.statusKey j = "pending")
      ∧ ∀ j ∈ QueueStatus.userJobs userId s,
          QueueStatus.statusKey j ≠ "processing" := by
  by_cases hemp : (QueueStatus.userJobs userId s).isEmpty
  · rw [List.isEmpty_iff] at hemp
    simp [QueueStatus.handler, hemp]
  · simp only [QueueStatus.handler, hemp, Bool.false_eq_true, if_false]
    simp only [QueueStatus.countStats, QueueStatus.countStats_pending,
      QueueStatus.countStats_processing, Bool.and_eq_true, decide_eq_true_eq]
    constructor
    · rintro ⟨h1, h2⟩
      refine ⟨?_, ?_⟩
      · have hcp : 0 < (QueueStatus.userJobs userId s).countP
            (fun j => QueueStatus.statusKey j == "pending") := by omega
        have := List.countP_pos_iff.mp hcp
        simpa only [beq_iff_eq] using this
      · intro j hj hcon
        have hpos : 0 < (QueueStatus.userJobs userId s).countP
            (fun j => QueueStatus.statusKey j == "processing") := by
          apply List.countP_pos_iff.mpr
          exact ⟨j, hj, by simp [hcon]⟩
        omega
    · rintro ⟨⟨j, hj, hjp⟩, h2⟩
      constructor
      · have hpos : 0 < (QueueStatus.userJobs userId s).countP
            (fun j => QueueStatus.statusKey j == "pending") :=
          List.countP_pos_iff.mpr ⟨j, hj, by simp [hjp]⟩
        omega
      · have : (QueueStatus.userJobs userId s).countP
            (fun j => QueueStatus.statusKey j == "processing") = 0 := by
          apply List.countP_eq_zero.mpr
          intro x hx
          simp [h2 x hx]
        omega

theorem handler_needs_eq_dispatch (userId : String) (s : Store) :
    (QueueStatus.handler userId s).1.needsProcessing =
      (QueueStatus.handler userId s).1.dispatchesBatch := by
  by_cases hemp : (QueueStatus.userJobs userId s).isEmpty <;>
    simp [QueueStatus.handler, hemp]

theorem handler_store_unchanged (userId : String) (s : Store) :
    (QueueStatus.handler userId s).2 = s := by
  by_cases hemp : (QueueStatus.userJobs userId s).isEmpty <;>
    simp [QueueStatus.handler, hemp]

/-- C7: the dispatch-trigger flag of the status aggregate is true exactly
when the owner has at least one queued (pending) job and no claimed
(processing) job in the snapshot — needsProcessing equals queuedCount > 0 and
claimedCount = 0 (a snapshot with no jobs at all returns no flag, read as
false). -/
theorem needsProcessing_iff (userId : String) (s : Store) :
    (QueueStatus.handler userId s).1.needsProcessing = true ↔
      (∃ j ∈ QueueStatus.userJobs userId s, QueueStatus.statusKey j = "pending")
      ∧ ∀ j ∈ QueueStatus.userJobs userId s,
          QueueStatus.statusKey j ≠ "processing" := by
  rw [handler_needs_eq_dispatch]
  exact handler_dispatch_iff userId s

/-- Counterexample for C8: on a store holding one pending job of the owner,
the status handler does not merely read — it fires the process-batch dispatch
(the fire-and-forget fetch of lines 68 to 78), i.e. it performs remediation
as part of computing the status. -/
theorem status_pure_read_counterexample :
    (QueueStatus.handler ("u1") c1Store).1.dispatchesBatch = true ∧
    c1Job.status = "pending" := by decide

/-- C8 (amended): the status handler writes nothing to the Job Store (the
store comes back unchanged), but it is not remediation-free: it fires a
process-batch dispatch exactly when the owner has a pending job and no
processing job. -/
theorem queue_status_read_only_but_dispatches (userId : String) (s : Store) :
    (QueueStatus.handler userId s).2 = s ∧
    ((QueueStatus.handler userId s).1.dispatchesBatch = true ↔
      (∃ j ∈ QueueStatus.userJobs userId s, QueueStatus.statusKey j = "pending")
      ∧ ∀ j ∈ QueueStatus.userJobs userId s,
          QueueStatus.statusKey j ≠ "processing") :=
  ⟨handler_store_unchanged userId s, handler_dispatch_iff userId s⟩

theorem roundPct_all (L : Nat) (h : 0 < L) : QueueStatus.roundPct L L = 100 := by
  unfold QueueStatus.roundPct
  apply Nat.div_eq_of_lt_le <;> omega

/-- C10: in the queue-status aggregate, progress is the rounded percentage of
completed plus failed over total and isComplete is progress at least 100, so
dead (failed) jobs count toward completion: a non-empty snapshot in which
every job is failed reports progress 100 and isComplete true. -/
theorem all_failed_progress_complete (userId : String) (s : Store)
    (hne : QueueStatus.userJobs userId s ≠ [])
    (hall : ∀ j ∈ QueueStatus.userJobs userId s, j.status = "failed") :
    (QueueStatus.handler userId s).1.progress = 100 ∧
    (QueueStatus.handler userId s).1.isComplete = true := by
  have hemp : (QueueStatus.userJobs userId s).isEmpty = false := by
    simp [List.isEmpty_iff, hne]
  have hkey : ∀ j ∈ QueueStatus.userJobs userId s,
      QueueStatus.statusKey j = "failed" := by
    intro j hj
    simp [QueueStatus.statusKey, hall j hj]
  have hfailc : (QueueStatus.userJobs userId s).countP
      (fun j => QueueStatus.statusKey j == "failed")
      = (QueueStatus.userJobs userId s).length := by
    apply List.countP_eq_length.mpr
    intro j hj
    simp [hkey j hj]
  have hcompc : (QueueStatus.userJobs userId s).countP
      (fun j => QueueStatus.statusKey j == "completed") = 0 := by
    apply List.countP_eq_zero.mpr
    intro j hj
    simp [hkey j hj]
  have hlen : 0 < (QueueStatus.userJobs userId s).length :=
    List.length_pos.mpr hne
  have htotal : (QueueStatus.countStats (QueueStatus.userJobs userId s)).total
      = (QueueStatus.userJobs userId s).length := by
    simpa using QueueStatus.countStats_total (QueueStatus.userJobs userId s) {}
  have hc : (QueueStatus.countStats (QueueStatus.userJobs userId s)).completed
      = 0 := by
    simpa [hcompc] using
      QueueStatus.countStats_completed (QueueStatus.userJobs userId s) {}
  have hf : (QueueStatus.countStats (QueueStatus.userJobs userId s)).failed
      = (QueueStatus.userJobs userId s).length := by
    simpa [hfailc] using
      QueueStatus.countStats_failed (QueueStatus.userJobs userId s) {}
  have hprog : (QueueStatus.handler userId s).1.progress = 100 := by
    simp only [QueueStatus.handler, hemp, Bool.false_eq_true, if_false,
      htotal, hc, hf, Nat.zero_add, if_pos hlen]
    exact roundPct_all _ hlen
  refine ⟨hprog, ?_⟩
  simp only [QueueStatus.handler, hemp, Bool.false_eq_true, if_false,
    htotal, hc, hf, Nat.zero_add, if_pos hlen] at hprog ⊢
  simp [hprog]

/-- Terminal failed job used by the C10 witness. -/
def c10Job : Job :=
  { userId := "u1", status := "failed", text := "cv", selectedFields := [],
    fileName := "d.pdf", createdAt := 0, finishedAt := some 5,
    error := some ("Timeout na API Gemini") }

/-- Two-job all-failed store used by the C10 witness. -/
def c10Store : Store := [(("j1"), c10Job), (("j2"), c10Job)]

/-- Witness for C10 at a concrete two-job all-failed queue. -/
theorem all_failed_progress_complete_witness :
    (QueueStatus.handler ("u1") c10Store).1.progress = 100 ∧
    (QueueStatus.handler ("u1") c10Store).1.isComplete = true :=
  all_failed_progress_complete ("u1") c10Store (by decide) (by decide)

/-- Comparison of the orderBy createdAt ascending clause. -/
def jobLe (a b : String × Job) : Bool := decide (a.2.createdAt ≤ b.2.createdAt)

/-- The two where clauses shared by the dispatch queries: the owner's pending
jobs, in store order. -/
def pendingOf (userId : String) (s : Store) : List (String × Job) :=
  s.filter fun p => p.2.userId == userId && p.2.status == "pending"

namespace StartProcessing

/-- Embedding of findPendingJobs from api/start-processing.js (lines 191 to
213): the owner's pending jobs ordered by createdAt ascending, limited. -/
def findPendingJobs (userId : String) (lim : Nat) (s : Store) :
    List (String × Job) :=
  ((pendingOf userId s).mergeSort jobLe).take lim

end StartProcessing

namespace ProcessBatch

/-- Embedding of findPendingJobs from api/process-batch.js (lines 94 to 110):
the owner's pending jobs with a limit and no orderBy clause — the results
arrive in the store's native order, not in createdAt order. -/
def findPendingJobs (userId : String) (lim : Nat) (s : Store) :
    List (String × Job) :=
  (pendingOf userId s).take lim

end ProcessBatch

namespace ProcessJob

/-- Embedding of the query of triggerNextJob from api/process-job.js (lines
72 to 98): the owner's pending job with least createdAt (orderBy createdAt,
limit 1). -/
def triggerNextJobQuery (userId : String) (s : Store) :
    Option (String × Job) :=
  (((pendingOf userId s).mergeSort jobLe).take 1).head?

end ProcessJob

/-- Later-created pending job that the store enumerates first (its document
id sorts lower), used by the C3 counterexample. -/
def c3Late : Job :=
  { userId := "u1", status := "pending", text := "cv", selectedFields := [],
    fileName := "late.pdf", createdAt := 5 }

/-- Earlier-created pending job that the store enumerates second, used by the
C3 counterexample. -/
def c3Early : Job :=
  { userId := "u1", status := "pending", text := "cv", selectedFields := [],
    fileName := "early.pdf", createdAt := 3 }

/-- Store for the C3 counterexample: document ids a and b, where the
later-created job holds the smaller id and is hence enumerated first. -/
def c3Store : Store := [(("a"), c3Late), (("b"), c3Early)]

/-- Counterexample for C3: the batch dispatch path (process-batch
findPendingJobs, which has no orderBy) selects the job with the larger
createdAt even though a pending job of the same owner with a smaller
createdAt exists, so the dispatch path does not always claim smallest
enqueuedAt first. -/
theorem fifo_order_counterexample :
    ProcessBatch.findPendingJobs ("u1") 1 c3Store = [(("a"), c3Late)] ∧
    (("b"), c3Early) ∈ pendingOf ("u1") c3Store ∧
    c3Early.createdAt < c3Late.createdAt := by decide

/-- C3 (amended): the start-processing dispatch path and the process-job
chain continuation select smallest-createdAt pending jobs first — the
selected list is non-decreasing in createdAt and every selected job has
createdAt at most that of every unselected pending job, and the chain picks a
pending job with minimal createdAt — while the process-batch path (the
counterexample) selects with no ordering guarantee. -/
theorem ordered_dispatch_selects_earliest (userId : String) (lim : Nat)
    (s : Store) :
    List.Pairwise (fun a b => jobLe a b = true)
      (StartProcessing.findPendingJobs userId lim s) ∧
    (∃ rest,
      (pendingOf userId s).Perm
        (StartProcessing.findPendingJobs userId lim s ++ rest) ∧
      ∀ x ∈ StartProcessing.findPendingJobs userId lim s, ∀ y ∈ rest,
        x.2.createdAt ≤ y.2.createdAt) ∧
    ∀ p, ProcessJob.triggerNextJobQuery userId s = some p →
      p ∈ pendingOf userId s ∧
      ∀ y ∈ pendingOf userId s, p.2.createdAt ≤ y.2.createdAt := by
  have htrans : ∀ a b c : String × Job,
      jobLe a b = true → jobLe b c = true → jobLe a c = true := by
    intro a b c
    simp only [jobLe, decide_eq_true_eq]
    omega
  have htotal : ∀ a b : String × Job, (jobLe a b || jobLe b a) = true := by
    intro a b
    simp only [jobLe, Bool.or_eq_true, decide_eq_true_eq]
    omega
  have hsorted := List.sorted_mergeSort htrans htotal (pendingOf userId s)
  have hperm := List.mergeSort_perm (pendingOf userId s) jobLe
  refine ⟨?_, ⟨((pendingOf userId s).mergeSort jobLe).drop lim, ?_, ?_⟩, ?_⟩
  · exact List.Pairwise.sublist (List.take_sublist _ _) hsorted
  · rw [StartProcessing.findPendingJobs, List.take_append_drop]
    exact hperm.symm
  · intro x hx y hy
    have hsplit := hsorted
    rw [← List.take_append_drop lim ((pendingOf userId s).mergeSort jobLe)]
      at hsplit
    have hcross := (List.pairwise_append.mp hsplit).2.2 x hx y hy
    simpa [jobLe] using hcross
  · intro p hp
    rw [ProcessJob.triggerNextJobQuery] at hp
    cases hsort : (pendingOf userId s).mergeSort jobLe with
    | nil => rw [hsort] at hp; simp at hp
    | cons q t =>
        rw [hsort] at hp
        simp only [List.take, List.head?, Option.some.injEq] at hp
        subst hp
        constructor
        · have hmem : q ∈ (pendingOf userId s).mergeSort jobLe := by
            rw [hsort]
            exact List.mem_cons_self _ _
          exact hperm.mem_iff.mp hmem
        · intro y hy
          have hym : y ∈ (pendingOf userId s).mergeSort jobLe :=
            hperm.mem_iff.mpr hy
          rw [hsort] at hym
          rcases List.mem_cons.mp hym with h | h
          · rw [h]
          · have hq := hsorted
            rw [hsort] at hq
            have hle := (List.pairwise_cons.mp hq).1 y h
            simpa [jobLe] using hle

/-- Witness for the amended C3 statement at the concrete two-job store. -/
theorem ordered_dispatch_selects_earliest_witness :
    List.Pairwise (fun a b => jobLe a b = true)
      (StartProcessing.findPendingJobs ("u1") 1 c3Store) ∧
    (∃ rest,
      (pendingOf ("u1") c3Store).Perm
        (StartProcessing.findPendingJobs ("u1") 1 c3Store ++ rest) ∧
      ∀ x ∈ StartProcessing.findPendingJobs ("u1") 1 c3Store, ∀ y ∈ rest,
        x.2.createdAt ≤ y.2.createdAt) ∧
    ∀ p, ProcessJob.triggerNextJobQuery ("u1") c3Store = some p →
      p ∈ pendingOf ("u1") c3Store ∧
      ∀ y ∈ pendingOf ("u1") c3Store, p.2.createdAt ≤ y.2.createdAt :=
  ordered_dispatch_selects_earliest ("u1") 1 c3Store

namespace Rx

/-!
Executable embedding of the regular expressions of the local fallback
extractors.  Each JS pattern is rendered as a total matcher over the
character list of the text, reproducing the leftmost-match, greedy-with-
backtracking semantics of the JS engine for that concrete pattern.  The JS
whitespace class is restricted to ASCII whitespace (the unicode space
characters do not occur in the embedded inputs).
-/

/-- Digit class of a JS pattern. -/
def isDigitCh (c : Char) : Bool := c.isDigit

/-- ASCII word character class (underlies the word boundary). -/
def isWordCh (c : Char) : Bool := c.isAlphanum || c = '_'

/-- ASCII whitespace class. -/
def isSpaceCh (c : Char) : Bool :=
  c = ' ' || c = '\t' || c = '\n' || c = '\r' || c = '\x0b' || c = '\x0c'

/-- Word boundary after the last consumed character: the next character is
absent or not a word character (the last consumed character is always a word
character at the call sites). -/
def noWordAhead : List Char → Bool
  | [] => true
  | c :: _ => !(isWordCh c)

/-- Local-part class of the email pattern. -/
def isLocalCh (c : Char) : Bool :=
  c.isAlphanum || c = '.' || c = '_' || c = '%' || c = '+' || c = '-'

/-- Domain-part class of the email pattern. -/
def isDomainCh (c : Char) : Bool := c.isAlphanum || c = '.' || c = '-'

/-- Backtracking of the greedy domain run against the dot-and-letters tail:
the rightmost dot of the run followed by at least two ASCII letters, split
into the characters before the dot and those after it. -/
def lastDotSplit : List Char → Option (List Char × List Char)
  | [] => none
  | c :: cs =>
      match lastDotSplit cs with
      | some (pre, post) => some (c :: pre, post)
      | none =>
          if c = '.' && decide (2 ≤ (cs.takeWhile Char.isAlpha).length) then
            some ([], cs)
          else none

/-- Email pattern anchored at the position: local-part run, the at sign, a
domain run whose greedy consumption backtracks to the last dot followed by at
least two letters, the letters taken greedily. -/
def emailHere (l : List Char) : Option (List Char) :=
  match l.span isLocalCh with
  | (loc, r1) =>
      if loc.isEmpty then none
      else
        match r1 with
        | '@' :: r2 =>
            (match r2.span isDomainCh with
             | (dom, _) =>
                 match lastDotSplit dom with
                 | some (pre, post) =>
                     if pre.isEmpty then none
                     else some (loc ++ '@' :: pre ++ '.' ::
                       post.takeWhile Char.isAlpha)
                 | none => none)
        | _ => none

/-- Leftmost scan: the match attempt anchored at each successive position. -/
def scanAll (here : List Char → Option (List Char)) :
    List Char → Option (List Char)
  | [] => none
  | c :: cs =>
      match here (c :: cs) with
      | some m => some m
      | none => scanAll here cs

/-- Multiline-anchored scan: the attempt fires only at the string start and
right after a line terminator. -/
def scanLines (here : List Char → Option (List Char)) :
    Bool → List Char → Option (List Char)
  | _, [] => none
  | atStart, c :: cs =>
      match (if atStart then here (c :: cs) else none) with
      | some m => some m
      | none => scanLines here (c = '\n' || c = '\r') cs

/-- Tail (ano, optional s, word boundary) of the idade patterns, case
insensitive; the backtracking on the optional s cannot rescue a following
word character, mirrored exactly. -/
def anosTail : List Char → Bool
  | a :: n :: o :: rest =>
      if a.toLower = 'a' && n.toLower = 'n' && o.toLower = 'o' then
        match rest with
        | [] => true
        | sc :: rest2 =>
            if sc.toLower = 's' then noWordAhead rest2 else !(isWordCh sc)
      else false
  | _ => false

/-- Idade pattern of process-single anchored at the position: one or two
digits (two tried first), at least one whitespace, then the anos tail;
returns the captured digits. -/
def idadeHere1 (l : List Char) : Option (List Char) :=
  match l with
  | d1 :: rest =>
      if isDigitCh d1 then
        let two :=
          match rest with
          | d2 :: rest2 =>
              if isDigitCh d2 then
                match rest2.span isSpaceCh with
                | (sp, r3) =>
                    if !sp.isEmpty && anosTail r3 then some [d1, d2] else none
              else none
          | [] => none
        match two with
        | some m => some m
        | none =>
            match rest.span isSpaceCh with
            | (sp, r3) => if !sp.isEmpty && anosTail r3 then some [d1] else none
      else none
  | [] => none

/-- Idade pattern of process-batch anchored at the position: exactly two
digits, any amount of whitespace, then the anos tail. -/
def idadeHereB (l : List Char) : Option (List Char) :=
  match l with
  | d1 :: d2 :: rest =>
      if isDigitCh d1 && isDigitCh d2 then
        match rest.span isSpaceCh with
        | (_, r3) => if anosTail r3 then some [d1, d2] else none
      else none
  | _ => none

/-- parseInt on captured digits. -/
def digitsToInt (l : List Char) : Int :=
  Int.ofNat (l.foldl (fun acc c => acc * 10 + (c.toNat - 48)) 0)

/-- Uppercase class of the batch nome pattern. -/
def isUpperB (c : Char) : Bool :=
  c.isUpper || c = 'À' || c = 'Á' || c = 'Â' || c = 'Ã' || c = 'Ä'

/-- Lowercase-or-whitespace class of the batch nome pattern. -/
def isLowerSpB (c : Char) : Bool :=
  c.isLower || c = 'à' || c = 'á' || c = 'â' || c = 'ã' || c = 'ä'
    || isSpaceCh c

/-- Batch nome pattern anchored at a line start: one uppercase-class
character then a greedy run of five to forty lowercase-or-whitespace
characters. -/
def nomeHereB (l : List Char) : Option (List Char) :=
  match l with
  | c :: cs =>
      if isUpperB c then
        let run := cs.takeWhile isLowerSpB
        if 5 ≤ run.length then some (c :: run.take 40) else none
      else none
  | [] => none

/-- Accented uppercase letters of the process-single nome patterns. -/
def upperAccents : List Char :=
  ['À', 'Á', 'Â', 'Ã', 'Ä', 'É', 'Ê', 'Ë', 'Í', 'Î', 'Ï', 'Ó', 'Ô', 'Õ',
   'Ö', 'Ú', 'Û', 'Ü', 'Ç']

/-- Accented lowercase letters of the process-single nome patterns. -/
def lowerAccents : List Char :=
  ['à', 'á', 'â', 'ã', 'ä', 'é', 'ê', 'ë', 'í', 'î', 'ï', 'ó', 'ô', 'õ',
   'ö', 'ú', 'û', 'ü', 'ç']

/-- Uppercase class (with accents) of the process-single nome patterns. -/
def isUpperP (c : Char) : Bool := c.isUpper || upperAccents.contains c

/-- Lowercase class (with accents) of the process-single nome patterns. -/
def isLowerP (c : Char) : Bool := c.isLower || lowerAccents.contains c

/-- One capitalized word: an uppercase-class character then a nonempty greedy
lowercase run; returns the consumed word and the rest. -/
def wordP (l : List Char) : Option (List Char × List Char) :=
  match l with
  | c :: cs =>
      if isUpperP c then
        match cs.span isLowerP with
        | (low, rest) => if low.isEmpty then none else some (c :: low, rest)
      else none
  | [] => none

/-- The connective alternatives of the first nome pattern, in source order. -/
def connAlts : List (List Char) :=
  [['d', 'e'], ['d', 'a'], ['d', 'o'], ['d', 'o', 's'], ['d', 'a', 's']]

/-- Literal match of a pattern at the head of the input. -/
def startsWithChars : List Char → List Char → Bool
  | [], _ => true
  | _ :: _, [] => false
  | a :: as, b :: bs => a = b && startsWithChars as bs

/-- Optional connective then whitespace then a capitalized word, trying the
connective alternatives in order and finally the bare word (the JS optional
group is greedy). -/
def connWord : List (List Char) → List Char → Option (List Char × List Char)
  | [], l => wordP l
  | conn :: alts, l =>
      if startsWithChars conn l then
        match (l.drop conn.length).span isSpaceCh with
        | (sp, r2) =>
            match wordP r2 with
            | some (w, rest) => some (conn ++ sp ++ w, rest)
            | none => connWord alts l
      else connWord alts l

/-- One repetition of the group of the first nome pattern: at least one
whitespace, then the optional connective and the next capitalized word. -/
def groupP (l : List Char) : Option (List Char × List Char) :=
  match l.span isSpaceCh with
  | (sp, r1) =>
      if sp.isEmpty then none
      else
        match connWord connAlts r1 with
        | some (g, rest) => some (sp ++ g, rest)
        | none => none

/-- Greedy one-or-more repetition of the group (fuel-bounded recursion; each
group consumes at least two characters, so input length is enough fuel). -/
def groupsP : Nat → List Char → List Char
  | 0, _ => []
  | fuel + 1, l =>
      match groupP l with
      | some (g, rest) => g ++ groupsP fuel rest
      | none => []

/-- First nome pattern of process-single anchored at a line start: a
capitalized word followed by one or more connective-word groups, all greedy. -/
def nomeHereP1 (l : List Char) : Option (List Char) :=
  match wordP l with
  | some (w, rest) =>
      (match groupP rest with
       | some (g1, rest2) => some (w ++ g1 ++ groupsP rest2.length rest2)
       | none => none)
  | none => none

/-- Colon-or-whitespace class of the second nome pattern. -/
def isColonSpace (c : Char) : Bool := c = ':' || isSpaceCh c

/-- Anything-but-line-terminator class of the second nome pattern. -/
def isNotCRLF (c : Char) : Bool := !(c = '\n' || c = '\r')

/-- Second nome pattern of process-single anchored at the position: the
literal nome (case insensitive), at least one colon or whitespace, then a
letter-class character (case insensitive under the i flag) and a greedy run
of ten to sixty non-line-terminator characters. -/
def nomeHereP2 (l : List Char) : Option (List Char) :=
  match l with
  | n :: o :: m :: e :: rest =>
      if n.toLower = 'n' && o.toLower = 'o' && m.toLower = 'm'
          && e.toLower = 'e' then
        match rest.span isColonSpace with
        | (sp, r2) =>
            if sp.isEmpty then none
            else
              match r2 with
              | c :: cs =>
                  if isUpperP c || isLowerP c then
                    let run := cs.takeWhile isNotCRLF
                    if 10 ≤ run.length then some (c :: run.take 60) else none
                  else none
              | [] => none
      else none
  | _ => none

/-- JS String.prototype.trim on a character list. -/
def trimChars (l : List Char) : List Char :=
  ((l.dropWhile isSpaceCh).reverse.dropWhile isSpaceCh).reverse

/-- Worker of collapseWs carrying whether the previous character was
whitespace. -/
def collapseWsGo : Bool → List Char → List Char
  | _, [] => []
  | prevSpace, c :: cs =>
      if isSpaceCh c then
        if prevSpace then collapseWsGo true cs
        else ' ' :: collapseWsGo true cs
      else c :: collapseWsGo false cs

/-- JS replace of every whitespace run by a single space. -/
def collapseWs (l : List Char) : List Char := collapseWsGo false l

end Rx

namespace Rx

/-- Exactly n digits from the head of the input. -/
def takeDigits : Nat → List Char → Option (List Char × List Char)
  | 0, l => some ([], l)
  | _ + 1, [] => none
  | n + 1, c :: cs =>
      if isDigitCh c then
        match takeDigits n cs with
        | some (ds, rest) => some (c :: ds, rest)
        | none => none
      else none

/-- Separator class of the phone patterns (whitespace or dash). -/
def isSepCh (c : Char) : Bool := isSpaceCh c || c = '-'

/-- Numeric tail of both phone patterns: four-or-five digits (five tried
first), an optional separator (tried present first), then four digits;
returns the two captured digit groups and the rest. -/
def phoneNum (l : List Char) : Option (List Char × List Char × List Char) :=
  let with5 :=
    match takeDigits 5 l with
    | some (d5, r) =>
        (match r with
         | c :: r2 =>
             if isSepCh c then
               match takeDigits 4 r2 with
               | some (d4, r3) => some (d5, d4, r3)
               | none =>
                   (match takeDigits 4 r with
                    | some (d4, r3) => some (d5, d4, r3)
                    | none => none)
             else
               match takeDigits 4 r with
               | some (d4, r3) => some (d5, d4, r3)
               | none => none
         | [] => none)
    | none => none
  match with5 with
  | some x => some x
  | none =>
      match takeDigits 4 l with
      | some (d4a, r) =>
          (match r with
           | c :: r2 =>
               if isSepCh c then
                 match takeDigits 4 r2 with
                 | some (d4b, r3) => some (d4a, d4b, r3)
                 | none =>
                     (match takeDigits 4 r with
                      | some (d4b, r3) => some (d4a, d4b, r3)
                      | none => none)
               else
                 match takeDigits 4 r with
                 | some (d4b, r3) => some (d4a, d4b, r3)
                 | none => none
           | [] => none)
      | none => none

/-- Middle of the process-single phone pattern: optional nine (tried
present first) followed by its optional whitespace, then the numeric tail. -/
def phoneCore (l : List Char) : Option (List Char × List Char × List Char) :=
  let with9 :=
    match l with
    | '9' :: r1 => phoneNum (r1.span isSpaceCh).2
    | _ => none
  match with9 with
  | some x => some x
  | none => phoneNum (l.span isSpaceCh).2

/-- Process-single phone pattern anchored at the position: optional captured
area code in literal parens followed by whitespace (tried present first),
then the core; returns the optional area-code capture, the two digit-group
captures and the rest. -/
def phoneHereSingle (l : List Char) :
    Option (Option (List Char) × List Char × List Char × List Char) :=
  let withDdd :=
    match l with
    | '(' :: r1 =>
        (match takeDigits 2 r1 with
         | some (dd, r2) =>
             (match r2 with
              | ')' :: r3 =>
                  (match phoneCore (r3.span isSpaceCh).2 with
                   | some (m, la, rest) => some (some dd, m, la, rest)
                   | none => none)
              | _ => none)
         | none => none)
    | _ => none
  match withDdd with
  | some x => some x
  | none =>
      match phoneCore l with
      | some (m, la, rest) => some (none, m, la, rest)
      | none => none

/-- Global scan of the process-single phone pattern: leftmost matches,
resuming after each match end (fuel-bounded by the input length; every match
consumes at least eight characters). -/
def phoneScanSingle :
    Nat → List Char → List (Option (List Char) × List Char × List Char)
  | 0, _ => []
  | _ + 1, [] => []
  | fuel + 1, c :: cs =>
      match phoneHereSingle (c :: cs) with
      | some (dd, m, la, rest) => (dd, m, la) :: phoneScanSingle fuel rest
      | none => phoneScanSingle fuel cs

/-- Formatting of one phone match by process-single (lines 263 to 269): area
code defaulting to 00, nine-digit bodies spaced after the leading nine,
eight-digit bodies split four-four. -/
def formatPhone (ddd : Option (List Char)) (m la : List Char) : String :=
  let dd := match ddd with | some d => d | none => ['0', '0']
  let numero := m ++ la
  if numero.length = 9 then
    String.mk ('(' :: dd ++ [')', ' ', '9', ' ']
      ++ (numero.drop 1).take 4 ++ ['-'] ++ numero.drop 5)
  else
    String.mk ('(' :: dd ++ [')', ' ']
      ++ numero.take 4 ++ ['-'] ++ numero.drop 4)

/-- Middle of the batch phone pattern: optional nine (no whitespace), then
the numeric tail; returns the rest. -/
def phoneCore9 (l : List Char) : Option (List Char) :=
  let with9 :=
    match l with
    | '9' :: r1 =>
        (match phoneNum r1 with
         | some (_, _, rest) => some rest
         | none => none)
    | _ => none
  match with9 with
  | some r => some r
  | none =>
      match phoneNum l with
      | some (_, _, rest) => some rest
      | none => none

/-- Candidate resume points after the optional area-code prefix of the batch
phone pattern with an opening paren present, in backtracking order: close
paren present then absent. -/
def afterParen (l : List Char) : List (List Char) :=
  match l with
  | '(' :: r1 =>
      (match takeDigits 2 r1 with
       | some (_, r2) =>
           (match r2 with
            | ')' :: r3 => [(r3.span isSpaceCh).2, (r2.span isSpaceCh).2]
            | _ => [(r2.span isSpaceCh).2])
       | none => [])
  | _ => []

/-- Candidate resume points with the opening paren absent. -/
def noParen (l : List Char) : List (List Char) :=
  match takeDigits 2 l with
  | some (_, r2) =>
      (match r2 with
       | ')' :: r3 => [(r3.span isSpaceCh).2, (r2.span isSpaceCh).2]
       | _ => [(r2.span isSpaceCh).2])
  | none => []

/-- First candidate on which the batch core succeeds. -/
def firstCore : List (List Char) → Option (List Char)
  | [] => none
  | c :: cs =>
      match phoneCore9 c with
      | some rest => some rest
      | none => firstCore cs

/-- Batch phone pattern anchored at the position; the consumed substring is
recovered from the rest by length. -/
def phoneHereBatch (l : List Char) : Option (List Char × List Char) :=
  match firstCore (afterParen l ++ noParen l ++ [l]) with
  | some rest => some (l.take (l.length - rest.length), rest)
  | none => none

/-- Global scan of the batch phone pattern, returning the full matched
substrings. -/
def phoneScanBatch : Nat → List Char → List (List Char)
  | 0, _ => []
  | _ + 1, [] => []
  | fuel + 1, c :: cs =>
      match phoneHereBatch (c :: cs) with
      | some (m, rest) => m :: phoneScanBatch fuel rest
      | none => phoneScanBatch fuel cs

end Rx

namespace ProcessBatch

/-- The fileName.replace of line 251: strip a trailing .pdf, case
insensitive. -/
def stripPdf (l : List Char) : List Char :=
  if 4 ≤ l.length ∧ (l.drop (l.length - 4)).map Char.toLower
      = ['.', 'p', 'd', 'f'] then
    l.take (l.length - 4)
  else l

/-- Embedding of extractWithSimpleFallback from api/process-batch.js (lines
250 to 283).  The nome defaults to the file name without its pdf extension
(or the literal not-found text when that is empty) and is overridden by the
first line-anchored capitalized run; idade, email and contatos are set for
every requested field, with zero, the empty string and the (possibly empty)
phone list as defaults; the function always reports success.  The JS try
block cannot throw on these operations, so the catch arm is dead. -/
def extractWithSimpleFallback (text : String) (selectedFields : List String)
    (fileName : String) : ApiResult :=
  let chars := text.data
  let base := stripPdf fileName.data
  let nome0 := if base.isEmpty then "Nome não encontrado" else String.mk base
  let nome :=
    match Rx.scanLines Rx.nomeHereB true chars with
    | some m => String.mk (Rx.trimChars m)
    | none => nome0
  let idade :=
    if selectedFields.contains ("idade") then
      some (match Rx.scanAll Rx.idadeHereB chars with
            | some ds => Rx.digitsToInt ds
            | none => 0)
    else none
  let email :=
    if selectedFields.contains ("email") then
      some (match Rx.scanAll Rx.emailHere chars with
            | some m => String.mk (m.map Char.toLower)
            | none => "")
    else none
  let contatos :=
    if selectedFields.contains ("contatos") then
      some (((Rx.phoneScanBatch chars.length chars).map
        fun m => String.mk m).take 2)
    else none
  { success := true,
    data := some
      { nome := nome, idade := idade, email := email, contatos := contatos } }

end ProcessBatch

namespace ProcessSingle

/-- Embedding of extractWithFallback from api/process-single.js (lines 220
to 286).  The nome comes from the first matching nome pattern (trimmed, with
whitespace runs collapsed) and otherwise stays the not-found default; idade
is set whenever requested (the 16-to-80 filter falling back to zero); email
and contatos are set only when their pattern matches somewhere in the text;
the function always reports success. -/
def extractWithFallback (text : String) (selectedFields : List String)
    (jobId : String) : ApiResult :=
  let chars := text.data
  let nome :=
    match Rx.scanLines Rx.nomeHereP1 true chars with
    | some m => String.mk (Rx.collapseWs (Rx.trimChars m))
    | none =>
        match Rx.scanAll Rx.nomeHereP2 chars with
        | some m => String.mk (Rx.collapseWs (Rx.trimChars m))
        | none => "Nome não encontrado"
  let idade :=
    if selectedFields.contains ("idade") then
      some (match Rx.scanAll Rx.idadeHere1 chars with
            | some ds =>
                let v := Rx.digitsToInt ds
                if 16 ≤ v ∧ v ≤ 80 then v else 0
            | none => 0)
    else none
  let email :=
    if selectedFields.contains ("email") then
      match Rx.scanAll Rx.emailHere chars with
      | some m => some (String.mk (m.map Char.toLower))
      | none => none
    else none
  let contatos :=
    if selectedFields.contains ("contatos") then
      match Rx.phoneScanSingle chars.length chars with
      | [] => none
      | ms => some ((ms.map fun t => Rx.formatPhone t.1 t.2.1 t.2.2).take 3)
    else none
  { success := true,
    data := some
      { nome := nome, idade := idade, email := email, contatos := contatos } }

end ProcessSingle

/-- Counterexample for C9: extractWithFallback invoked with the email field
requested on a text with no email pattern returns success but its data omits
the requested email field entirely (and likewise would omit contatos), so
the fallback output does not always contain every requested field. -/
theorem fallback_shape_counterexample :
    ProcessSingle.extractWithFallback ("xyz") (["email"]) ("j1") =
      { success := true,
        data := some
          { nome := "Nome não encontrado", idade := none, email := none,
            contatos := none } } ∧
    ("email") ∈ (["email"] : List String) := by decide

/-- C9 (amended): both fallback extractors always return success.  The batch
fallback (extractWithSimpleFallback) returns data containing every requested
field with its coarse type — idade a number, email a string, contatos a
string array, nome always present; the process-single fallback
(extractWithFallback) always returns nome and, when requested, idade, but
may omit email and contatos when their patterns find no match. -/
theorem fallback_always_success_shape (text : String)
    (selectedFields : List String) (fileName jobId : String) :
    ((ProcessBatch.extractWithSimpleFallback text selectedFields
        fileName).success = true ∧
     ∃ d, (ProcessBatch.extractWithSimpleFallback text selectedFields
        fileName).data = some d ∧
       (selectedFields.contains ("idade") = true → d.idade.isSome) ∧
       (selectedFields.contains ("email") = true → d.email.isSome) ∧
       (selectedFields.contains ("contatos") = true → d.contatos.isSome)) ∧
    ((ProcessSingle.extractWithFallback text selectedFields
        jobId).success = true ∧
     ∃ d, (ProcessSingle.extractWithFallback text selectedFields
        jobId).data = some d ∧
       (selectedFields.contains ("idade") = true → d.idade.isSome)) := by
  refine ⟨⟨rfl, ⟨_, rfl, ?_, ?_, ?_⟩⟩, rfl, ⟨_, rfl, ?_⟩⟩ <;> intro h <;>
    simp at h <;>
    simp [ProcessBatch.extractWithSimpleFallback,
      ProcessSingle.extractWithFallback, h]

/-- Witness for the amended C9 statement at a concrete input requesting all
three optional fields. -/
theorem fallback_always_success_shape_witness :
    ((ProcessBatch.extractWithSimpleFallback ("")
        (["idade", "email", "contatos"]) ("cv.pdf")).success = true ∧
     ∃ d, (ProcessBatch.extractWithSimpleFallback ("")
        (["idade", "email", "contatos"]) ("cv.pdf")).data = some d ∧
       ((["idade", "email", "contatos"] : List String).contains ("idade")
          = true → d.idade.isSome) ∧
       ((["idade", "email", "contatos"] : List String).contains ("email")
          = true → d.email.isSome) ∧
       ((["idade", "email", "contatos"] : List String).contains ("contatos")
          = true → d.contatos.isSome)) ∧
    ((ProcessSingle.extractWithFallback ("")
        (["idade", "email", "contatos"]) ("j1")).success = true ∧
     ∃ d, (ProcessSingle.extractWithFallback ("")
        (["idade", "email", "contatos"]) ("j1")).data = some d ∧
       ((["idade", "email", "contatos"] : List String).contains ("idade")
          = true → d.idade.isSome)) :=
  fallback_always_success_shape ("") (["idade", "email", "contatos"])
    ("cv.pdf") ("j1")
